import Mathlib

/-!
Verification development for the `yrweather` meteogram widget
(`src/runtime/widget.tsx` and its forecast-enabled variant).

The TypeScript source is shallowly embedded: JS numbers are modelled as
exact rationals (`ℚ`), JS strings as `String` / `List Char`, nullable
values as `Option`, and the browser DOM (an injected capability per the
design notes) as an explicit element tree.  Every definition follows the
corresponding source function; doc comments cite the source symbol.
-/

namespace YrWeather

/-! ## JS primitives -/

/-- The whitespace class used by JS `\s`, `trim` and `parseFloat`
(ASCII portion, which is all the source ever feeds it). -/
def jsWS (c : Char) : Bool :=
  c == ' ' || c == '\t' || c == '\n' || c == '\r' || c == '\x0b' || c == '\x0c'

/-- JS `String.prototype.trim` on a character list. -/
def trimL (l : List Char) : List Char :=
  ((l.dropWhile jsWS).reverse.dropWhile jsWS).reverse

/-- JS `String.prototype.startsWith` on character lists. -/
def startsWithL : List Char → List Char → Bool
  | [], _ => true
  | _ :: _, [] => false
  | p :: ps, c :: cs => p == c && startsWithL ps cs

/-- JS single-character `String.prototype.split`. -/
def splitOnCharL (sep : Char) : List Char → List (List Char)
  | [] => [[]]
  | c :: cs =>
    let r := splitOnCharL sep cs
    if c == sep then [] :: r
    else match r with
      | [] => [[c]]
      | h :: t => (c :: h) :: t

/-- JS truthiness for a nullable string: `null`, `undefined` and `""` are falsy. -/
def jsTruthy (o : Option String) : Option String :=
  match o with
  | some s => if s = "" then none else some s
  | none => none

/-- JS `a || b` on nullable strings (as used for `rawSvg || svgCode`
followed by a truthiness test on the result). -/
def jsOrStr (a b : Option String) : Option String :=
  (jsTruthy a).orElse fun _ => jsTruthy b

/-- A JS number as produced by `parseFloat`: a finite value, an infinity,
or `NaN`. -/
inductive JSNum where
  | val (q : ℚ)
  | inf (neg : Bool)
  | nan
deriving DecidableEq

/-- `Number.isFinite`. -/
def JSNum.isFinite : JSNum → Bool
  | .val _ => true
  | _ => false

/-- The finite value of a `JSNum`, with a default for `NaN`/infinities. -/
def JSNum.valD : JSNum → ℚ → ℚ
  | .val q, _ => q
  | _, d => d

/-- Numeric value of a digit list (most significant first). -/
def natOfDigits (l : List Char) : ℕ :=
  l.foldl (fun acc c => 10 * acc + (c.toNat - '0'.toNat)) 0

/-- Mantissa of a JS float literal: `\d+(\.\d*)?` or `\.\d+`; returns the
value together with the remaining characters, or `none` when no digit is
found (JS `NaN`). -/
def parseMantissa (l : List Char) : Option (ℚ × List Char) :=
  let intPart := l.takeWhile Char.isDigit
  let rest := l.dropWhile Char.isDigit
  match rest with
  | '.' :: r =>
    let fracPart := r.takeWhile Char.isDigit
    if intPart.isEmpty && fracPart.isEmpty then none
    else
      some ((natOfDigits intPart : ℚ) +
        (natOfDigits fracPart : ℚ) / ((10 : ℚ) ^ fracPart.length),
        r.dropWhile Char.isDigit)
  | _ =>
    if intPart.isEmpty then none else some ((natOfDigits intPart : ℚ), rest)

/-- Optional exponent suffix `[eE][+-]?\d+`; ignored (as JS does) when no
digits follow the letter. -/
def applyExponent (q : ℚ) (l : List Char) : ℚ :=
  match l with
  | 'e' :: r | 'E' :: r =>
    let (negE, r') := match r with
      | '-' :: r' => (true, r')
      | '+' :: r' => (false, r')
      | r' => (false, r')
    let ds := r'.takeWhile Char.isDigit
    if ds.isEmpty then q
    else if negE then q / ((10 : ℚ) ^ natOfDigits ds)
    else q * ((10 : ℚ) ^ natOfDigits ds)
  | _ => q

/-- JS `parseFloat`: skip leading whitespace, optional sign, `Infinity`
literal or decimal mantissa with optional exponent; trailing garbage is
ignored; no parse yields `NaN`. -/
def jsParseFloat (s : String) : JSNum :=
  let l := s.data.dropWhile jsWS
  let (neg, l) := match l with
    | '-' :: r => (true, r)
    | '+' :: r => (false, r)
    | r => (false, r)
  if startsWithL "Infinity".data l then .inf neg
  else
    match parseMantissa l with
    | none => .nan
    | some (q, rest) =>
      let v := applyExponent q rest
      .val (if neg then -v else v)

/-! ## URL model

`new URL(...)` is a host capability.  Modelled from the spec (§9: an
injected parser; §4.1: "must not throw on malformed URLs"): an absolute
URL `scheme://host/path?query#fragment` with a nonempty letter scheme and
nonempty host; anything else throws, which `extractCoordinates` turns
into its negative result. -/

/-- Result of `new URL(url)`: the `pathname` (leading slash included),
or `none` when the constructor throws. -/
def urlPathname (s : String) : Option (List Char) :=
  let l := s.data
  let scheme := l.takeWhile Char.isAlpha
  if scheme.isEmpty then none
  else
    match l.drop scheme.length with
    | ':' :: '/' :: '/' :: rest =>
      let host := rest.takeWhile fun c => !(c == '/' || c == '?' || c == '#')
      if host.isEmpty then none
      else
        let afterHost := rest.dropWhile fun c => !(c == '/' || c == '?' || c == '#')
        some (afterHost.takeWhile fun c => !(c == '?' || c == '#'))
    | _ => none

/-! ## CoordinateExtractor (`extractCoordinates`, part_000 lines 180-196) -/

/-- One `\d+` of the coordinate regex: consume one or more digits. -/
def eatDigits (l : List Char) : Option (List Char) :=
  if (l.takeWhile Char.isDigit).isEmpty then none
  else some (l.dropWhile Char.isDigit)

/-- `-?\d+\.\d+` of the coordinate regex. -/
def eatDecimal (l : List Char) : Option (List Char) :=
  let l := match l with
    | '-' :: r => r
    | _ => l
  match eatDigits l with
  | none => none
  | some l' =>
    match l' with
    | '.' :: r => eatDigits r
    | _ => none

/-- The full pattern `-?\d+\.\d+,-?\d+\.\d+` anchored at the head. -/
def coordHere (l : List Char) : Bool :=
  match eatDecimal l with
  | some (',' :: r) => (eatDecimal r).isSome
  | _ => false

/-- The JS regex `.test(seg)` call for the coordinate pattern:
an unanchored substring search. -/
def coordTest : List Char → Bool
  | [] => false
  | c :: r => coordHere (c :: r) || coordTest r

/-- `Coordinates` as produced by `extractCoordinates`. -/
structure Coordinates where
  lat : ℚ
  lon : ℚ
deriving DecidableEq

/-- `extractCoordinates` (part_000 lines 180-196): parse the URL, split
`pathname` on `/`, drop empty segments (`filter(Boolean)`), find the
first segment the coordinate regex tests true on, split it on `,`,
`parseFloat` the first two pieces, and return them only when both are
finite; any failure (including a throwing URL constructor) yields the
normal negative result `none`. -/
def extractCoordinates (url : String) : Option Coordinates :=
  match urlPathname url with
  | none => none
  | some path =>
    let segs := (splitOnCharL '/' path).filter fun s => !s.isEmpty
    match segs.find? coordTest with
    | none => none
    | some seg =>
      let parts := splitOnCharL ',' seg
      let latRaw := (parts.headD []).asString
      let lonNum := match parts.tail.head? with
        | some p => jsParseFloat p.asString
        | none => JSNum.nan
      match jsParseFloat latRaw, lonNum with
      | .val la, .val lo => some ⟨la, lo⟩
      | _, _ => none

/-! ## ForecastTransformer (`transformForecast`, part_000 lines 244-283)

Forecast JSON is modelled with the fields the function reads; a field of
non-numeric type fails the `typeof x === 'number'` guard exactly like an
absent one, so numeric fields are `Option ℚ`. -/

/-- `data.instant.details` of a timeseries entry. -/
structure InstantDetails where
  air_temperature : Option ℚ := none
  wind_speed : Option ℚ := none
  wind_speed_of_gust : Option ℚ := none
deriving DecidableEq

/-- `data.next_1_hours.details` / `data.next_6_hours.details`. -/
structure NextHoursDetails where
  precipitation_amount : Option ℚ := none
  wind_speed_of_gust : Option ℚ := none
deriving DecidableEq

/-- One entry of `properties.timeseries`. -/
structure TimeseriesEntry where
  time : Option String := none
  instant : InstantDetails := {}
  next_1_hours : Option NextHoursDetails := none
  next_6_hours : Option NextHoursDetails := none
deriving DecidableEq

/-- The parts of the forecast response body that `transformForecast`
reads: `properties.meta.updated_at` and `properties.timeseries`
(a non-array `timeseries` behaves as `[]` per the `Array.isArray` guard). -/
structure ForecastData where
  updated_at : Option String := none
  timeseries : Option (List TimeseriesEntry) := none
deriving DecidableEq

/-- `ForecastPoint` (part_000 lines 7-13). -/
structure ForecastPoint where
  time : String
  temperature : ℚ
  windSpeed : ℚ
  windGust : Option ℚ
  precipitation : Option ℚ
deriving DecidableEq

/-- `ForecastPayload` (part_000 lines 15-18). -/
structure ForecastPayload where
  updatedAt : String
  points : List ForecastPoint
deriving DecidableEq

/-- The loop body of `transformForecast` (lines 251-274): `continue` when
the entry lacks a truthy `time` or numeric `air_temperature` /
`wind_speed`, otherwise push a point with the gust and precipitation
fallback chains. -/
def mkPoint (e : TimeseriesEntry) : Option ForecastPoint :=
  match jsTruthy e.time, e.instant.air_temperature, e.instant.wind_speed with
  | some t, some temp, some ws =>
    some
      { time := t
        temperature := temp
        windSpeed := ws
        windGust :=
          match e.instant.wind_speed_of_gust with
          | some g => some g
          | none =>
            match e.next_1_hours.bind NextHoursDetails.wind_speed_of_gust with
            | some g => some g
            | none => e.next_6_hours.bind NextHoursDetails.wind_speed_of_gust
        precipitation :=
          match e.next_1_hours.bind NextHoursDetails.precipitation_amount with
          | some p => some p
          | none =>
            (e.next_6_hours.bind NextHoursDetails.precipitation_amount).map
              fun p => p / 6 }
  | _, _, _ => none

/-- `transformForecast` (part_000 lines 244-283).  `nowIso` stands for
`new Date().toISOString()`, used only when `updated_at` is falsy. -/
def transformForecast (nowIso : String) (d : ForecastData) : Option ForecastPayload :=
  let series := d.timeseries.getD []
  if series.isEmpty then none
  else
    let points := (series.take 48).filterMap mkPoint
    if points.isEmpty then none
    else some { updatedAt := (jsTruthy d.updated_at).getD nowIso, points := points }

/-- Spec-side validity test: the entry has a (truthy) timestamp and
numeric instantaneous temperature and wind speed. -/
def entryValid (e : TimeseriesEntry) : Bool :=
  (jsTruthy e.time).isSome && e.instant.air_temperature.isSome &&
    e.instant.wind_speed.isSome

/-- Spec-side wind-gust resolution order: instantaneous gust, else
next-1-hour gust, else next-6-hour gust, else absent. -/
def specGust (e : TimeseriesEntry) : Option ℚ :=
  (e.instant.wind_speed_of_gust.orElse fun _ =>
    e.next_1_hours.bind NextHoursDetails.wind_speed_of_gust).orElse fun _ =>
      e.next_6_hours.bind NextHoursDetails.wind_speed_of_gust

/-- Spec-side precipitation resolution order: next-1-hour amount, else
next-6-hour amount divided by 6, else absent. -/
def specPrecip (e : TimeseriesEntry) : Option ℚ :=
  ((e.next_1_hours.bind NextHoursDetails.precipitation_amount).orElse fun _ =>
    (e.next_6_hours.bind NextHoursDetails.precipitation_amount).map
      fun p => p / 6)

/-- Spec-side projection of a valid entry to its output point. -/
def entryPoint (e : TimeseriesEntry) : ForecastPoint :=
  { time := (jsTruthy e.time).getD ""
    temperature := e.instant.air_temperature.getD 0
    windSpeed := e.instant.wind_speed.getD 0
    windGust := specGust e
    precipitation := specPrecip e }

/-! ## ChartRenderer vertical temperature scale
(`generateForecastSvg`, part_000 lines 285-316) -/

/-- Canvas constants of `generateForecastSvg` (lines 287-294). -/
def chartHeight : ℚ := 540

/-- `margin.top`. -/
def marginTop : ℚ := 64

/-- `margin.bottom`. -/
def marginBottom : ℚ := 80

/-- `innerHeight = height - margin.top - margin.bottom`. -/
def innerHeight : ℚ := chartHeight - marginTop - marginBottom

/-- `tempSection = innerHeight * 0.55` (the temperature band). -/
def tempSection : ℚ := innerHeight * (55 / 100)

/-- `Math.max(...temperatures, 5)` (line 302). -/
def tempMaxOf (temps : List ℚ) : ℚ := temps.foldr max 5

/-- `Math.min(...temperatures, -5)` (line 303). -/
def tempMinOf (temps : List ℚ) : ℚ := temps.foldr min (-5)

/-- `tempRange = Math.max(tempMax - tempMin, 5)` (line 304). -/
def tempRangeOf (temps : List ℚ) : ℚ := max (tempMaxOf temps - tempMinOf temps) 5

/-- `tempY(value) = margin.top + (tempMax - value) / tempRange * tempSection`
(line 312). -/
def tempY (temps : List ℚ) (value : ℚ) : ℚ :=
  marginTop + (tempMaxOf temps - value) / tempRangeOf temps * tempSection

/-! ## Retry / backoff schedule
(`fetchSvgDirect` part_000 lines 158-161, `fetchFromForecastApi` part_000
lines 226-231, `fetchSvgFromUrl` widget.tsx lines 141-144)

All three catch handlers share the same schedule: on failure of attempt
`k` with `k < 5`, one retry is scheduled via `setTimeout(..., 1000 * k)`
with attempt number `k + 1`; on failure of attempt 5 the terminal
fallback policy runs.  `res k = true` means the network attempt `k`
succeeds. -/

/-- Runs the retry chain from attempt `k`; returns the list of backoff
delays (in ms) slept between attempts, the number of the last attempt
made, and whether that attempt succeeded. -/
def runRetry (res : ℕ → Bool) (k : ℕ) : List ℕ × ℕ × Bool :=
  if res k then ([], k, true)
  else if h : k < 5 then
    let r := runRetry res (k + 1)
    (1000 * k :: r.1, r.2)
  else ([], k, false)
termination_by 5 - k
decreasing_by omega

/-! ## AcquisitionController terminal-failure and success handlers -/

/-- Outcome of the attempt-5 failure handler. -/
inductive FinalOutcome where
  /-- `processSvg(fallback)` ran: the stale document is re-sanitized and
  displayed (the `Ready`-with-stale-document route). -/
  | useFallback (doc : String)
  /-- `setState({isLoading:false, error: msg})`: the `Failed` route. -/
  | failed (msg : String)
  /-- `setState({displayMode:'external', externalUrl})`: the degraded
  external-view route (widget.tsx only). -/
  | degraded (url : String)
deriving DecidableEq

/-- `fallback = this.state.rawSvg || this.props.config.svgCode` followed
by the truthiness test of `if (fallback && ...)`. -/
def fallbackDoc (rawSvg svgCode : Option String) : Option String :=
  jsOrStr rawSvg svgCode

/-- The guard `fallback.trim().startsWith('<svg')`. -/
def fallbackQualifies (fb : String) : Bool :=
  startsWithL "<svg".data (trimL fb.data)

/-- Attempt-5 failure handler of `fetchFromForecastApi`
(part_000 lines 232-241). -/
def finalFailureForecast (rawSvg svgCode : Option String) : FinalOutcome :=
  match fallbackDoc rawSvg svgCode with
  | some fb =>
    if fallbackQualifies fb then .useFallback fb
    else .failed "Unable to load forecast data."
  | none => .failed "Unable to load forecast data."

/-- Attempt-5 failure handler of `fetchSvgDirect`
(part_000 lines 162-173). -/
def finalFailureDirectLegacy (rawSvg svgCode : Option String) : FinalOutcome :=
  match fallbackDoc rawSvg svgCode with
  | some fb =>
    if fallbackQualifies fb then .useFallback fb
    else .failed "Unable to load meteogram from source."
  | none => .failed "Unable to load meteogram from source."

/-- Attempt-5 failure handler of `fetchSvgFromUrl`
(widget.tsx lines 145-159): same fallback check, but the no-fallback
route degrades to the external iframe view instead of an error. -/
def finalFailureDirect (rawSvg svgCode : Option String) (requestUrl : String) :
    FinalOutcome :=
  match fallbackDoc rawSvg svgCode with
  | some fb =>
    if fallbackQualifies fb then .useFallback fb
    else .degraded requestUrl
  | none => .degraded requestUrl

/-- Effects of a successful fetch/transform/render sequence. -/
structure SuccessEffects where
  /-- The string handed to `processSvg` (and retained as `rawSvg` when
  sanitization succeeds). -/
  svgString : String
  /-- Whether `onSettingChange` writes the string into the external
  configuration's `svgCode` field. -/
  persisted : Bool
deriving DecidableEq

/-- Success continuation of the direct-SVG fetch (part_000 lines 130-150,
widget.tsx lines 113-133).  `htmlSvg` is the injected
`DOMParser`/`querySelector('svg')` capability's answer (the first `<svg>`
element's `outerHTML`) for the HTML branch.  Persisting is guarded by
`svgString.startsWith('<svg')`; `none` models the thrown
"No SVG element found" error. -/
def directFetchSuccess (bodyText : String) (htmlSvg : Option String) :
    Option SuccessEffects :=
  let t := (trimL bodyText.data).asString
  if startsWithL "<svg".data t.data || startsWithL "<?xml".data t.data then
    some ⟨t, startsWithL "<svg".data t.data⟩
  else
    match htmlSvg with
    | some s => some ⟨s, startsWithL "<svg".data s.data⟩
    | none => none

/-- Success continuation of the forecast fetch (part_000 lines 216-225):
reject an empty/absent payload (retry path), otherwise render and
persist unconditionally.  `render` is the chart renderer
(`generateForecastSvg`). -/
def forecastFetchSuccess (render : ForecastPayload → String)
    (payload : Option ForecastPayload) : Option SuccessEffects :=
  match payload with
  | some p => if p.points.isEmpty then none else some ⟨render p, true⟩
  | none => none

/-! ## SvgSanitizer (`processSvg`, part_000 lines 437-482)

The browser DOM is the injected "XML-ish document parser + serializer"
capability of the design notes: an element tree with ordered attribute
lists.  `processSvg` receives the `<svg>` element found by
`doc.querySelector('svg')` and mutates it in place; the mutation pipeline
is embedded as a pure tree transform. -/

/-- A DOM node: an element with tag, attributes and children, or text. -/
inductive XNode where
  | elem (tag : String) (attrs : List (String × String)) (children : List XNode) : XNode
  | text (s : String) : XNode

/-- `getAttribute`: the first binding of the name, if present. -/
def getAttr : List (String × String) → String → Option String
  | [], _ => none
  | (m, w) :: rest, n => if m == n then some w else getAttr rest n

/-- `setAttribute`: overwrite in place when present (attribute names are
unique in a parsed document), else append. -/
def setAttr : List (String × String) → String → String → List (String × String)
  | [], n, v => [(n, v)]
  | (m, w) :: rest, n, v =>
    if m == n then (n, v) :: rest else (m, w) :: setAttr rest n v

/-- `removeAttribute`. -/
def removeAttr : List (String × String) → String → List (String × String)
  | [], _ => []
  | (m, w) :: rest, n =>
    if m == n then removeAttr rest n else (m, w) :: removeAttr rest n

/-- JS `'100px'.replace('px', '')`: remove the first occurrence of
`px` only. -/
def stripPx (s : String) : String :=
  match s.splitOn "px" with
  | [] => s
  | [x] => x
  | x :: y :: rest => x ++ String.intercalate "px" (y :: rest)

/-- Lines 443-447: synthesize `viewBox="0 0 W H"` when the root has no
`viewBox` attribute but truthy `width` and `height` (after stripping a
`px` suffix). -/
def viewBoxFix (a : List (String × String)) : List (String × String) :=
  if getAttr a "viewBox" = none then
    match (getAttr a "width").map stripPx, (getAttr a "height").map stripPx with
    | some w, some h =>
      if w ≠ "" ∧ h ≠ "" then setAttr a "viewBox" ("0 0 " ++ w ++ " " ++ h)
      else a
    | _, _ => a
  else a

/-- Lines 450-454: drop fixed `width`/`height`; default
`preserveAspectRatio` to `xMidYMid meet` when absent or empty (the code
tests `getAttribute` truthiness). -/
def scaleFix (a : List (String × String)) : List (String × String) :=
  let a := removeAttr (removeAttr a "width") "height"
  match getAttr a "preserveAspectRatio" with
  | some v => if v = "" then setAttr a "preserveAspectRatio" "xMidYMid meet" else a
  | none => setAttr a "preserveAspectRatio" "xMidYMid meet"

/-! ### The style-attribute regexes of the white-`<rect>` pass (line 467/469)

`stripFillDecls` models the global replace of
`(^|;)\s*fill\s*:\s*[^;]+;?` by `$1`; `whiteStyleTest` models the test of
`(^|;)\s*fill\s*:\s*(#fff|#ffffff|white|rgb\(\s*255\s*,\s*255\s*,\s*255\s*\))\s*;?`
(both case-insensitive).  Matches can only start at the string head or at
a `;`, which the scanners walk explicitly. -/

/-- Case-insensitive literal prefix match (`pat` given lowercase);
returns the remaining characters. -/
def matchCI : List Char → List Char → Option (List Char)
  | [], l => some l
  | _ :: _, [] => none
  | p :: ps, c :: cs => if c.toLower == p then matchCI ps cs else none

/-- The optional trailing `;?` of the strip pattern: consume one
semicolon if present. -/
def dropSemi (l : List Char) : List Char :=
  match l with
  | c :: r => if c == ';' then r else c :: r
  | [] => []

/-- The part of the strip pattern after the `(^|;)` anchor:
`\s*fill\s*:\s*[^;]+;?`.  Returns the characters after the match.
With backtracking, `\s*[^;]+` matches exactly the (necessarily
nonempty) run of non-semicolon characters after the colon. -/
def fillAfterAnchor (l : List Char) : Option (List Char) :=
  match matchCI "fill".data (l.dropWhile jsWS) with
  | none => none
  | some l2 =>
    match l2.dropWhile jsWS with
    | ':' :: l4 =>
      if (l4.takeWhile fun c => !(c == ';')).isEmpty then none
      else some (dropSemi (l4.dropWhile fun c => !(c == ';')))
    | _ => none

/-- `\s*` followed by literal `tok` (case-insensitive). -/
def expectTok (tok : String) (l : List Char) : Option (List Char) :=
  matchCI tok.data (l.dropWhile jsWS)

/-- The white alternatives of the test pattern after `fill\s*:\s*`:
`#fff|#ffffff|white|rgb\(\s*255\s*,\s*255\s*,\s*255\s*\)` (a prefix
match: the regex is unanchored on the right). -/
def whiteAfterColon (l : List Char) : Bool :=
  let l1 := l.dropWhile jsWS
  (matchCI "#fff".data l1).isSome || (matchCI "white".data l1).isSome ||
    (match matchCI "rgb(".data l1 with
     | none => false
     | some r =>
       (((((expectTok "255" r).bind (expectTok ",")).bind
         (expectTok "255")).bind (expectTok ",")).bind
           (expectTok "255")).bind (expectTok ")") |>.isSome)

/-- The white-fill test pattern after the `(^|;)` anchor. -/
def whiteFillAfterAnchor (l : List Char) : Bool :=
  match matchCI "fill".data (l.dropWhile jsWS) with
  | none => false
  | some l2 =>
    match l2.dropWhile jsWS with
    | ':' :: l4 => whiteAfterColon l4
    | _ => false

/-- Scan for a `;`-anchored match of the general fill pattern. -/
def scanFillGo : List Char → Bool
  | [] => false
  | c :: r => if c == ';' then (fillAfterAnchor r).isSome || scanFillGo r else scanFillGo r

/-- Whether the style string contains any match of the general pattern
`(^|;)\s*fill\s*:\s*[^;]+;?`. -/
def hasFillDecl (l : List Char) : Bool :=
  (fillAfterAnchor l).isSome || scanFillGo l

/-- Scan for a `;`-anchored match of the white-fill test pattern. -/
def scanWhiteGo : List Char → Bool
  | [] => false
  | c :: r => if c == ';' then whiteFillAfterAnchor r || scanWhiteGo r else scanWhiteGo r

/-- The `.test(style)` of line 467. -/
def whiteStyleTest (l : List Char) : Bool :=
  whiteFillAfterAnchor l || scanWhiteGo l

/-- `dropWhile` only shortens a list. -/
theorem dropWhileLen_le {α : Type} (p : α → Bool) :
    ∀ l : List α, (l.dropWhile p).length ≤ l.length := by
  intro l
  induction l with
  | nil => simp [List.dropWhile]
  | cons a as ih =>
    simp only [List.dropWhile]
    split
    · exact Nat.le_succ_of_le ih
    · simp

/-- A successful `matchCI` only consumes characters. -/
theorem matchCI_length_le :
    ∀ (p m r : List Char), matchCI p m = some r → r.length ≤ m.length := by
  intro p
  induction p with
  | nil =>
    intro m r h
    simp only [matchCI, Option.some.injEq] at h
    exact h ▸ Nat.le_refl _
  | cons c cs ih =>
    intro m r h
    cases m with
    | nil => exact absurd h (by simp [matchCI])
    | cons a as =>
      simp only [matchCI] at h
      split at h
      · exact Nat.le_succ_of_le (ih as r h)
      · exact absurd h (by simp)

/-- A successful `fillAfterAnchor` only consumes characters. -/
theorem fillAfterAnchor_length_le :
    ∀ (l r : List Char), fillAfterAnchor l = some r → r.length ≤ l.length := by
  intro l r h
  unfold fillAfterAnchor at h
  split at h
  · exact absurd h (by simp)
  · rename_i l2 hm
    have h2 : l2.length ≤ l.length :=
      Nat.le_trans (matchCI_length_le _ _ _ hm) (dropWhileLen_le _ _)
    split at h
    · rename_i l4 hd
      have h4 : l4.length < l2.length := by
        have := dropWhileLen_le jsWS l2
        rw [hd] at this
        simp only [List.length_cons] at this
        omega
      split at h
      · exact absurd h (by simp)
      · have hsemi : ∀ m : List Char, (dropSemi m).length ≤ m.length := by
          intro m
          cases m with
          | nil => simp [dropSemi]
          | cons c r =>
            simp only [dropSemi]
            split
            · simp
            · simp
        have hdl : (l4.dropWhile fun c => !(c == ';')).length ≤ l4.length :=
          dropWhileLen_le _ _
        have hr : r.length ≤ l4.length := by
          cases h
          exact Nat.le_trans (hsemi _) hdl
        omega
    · exact absurd h (by simp)

/-- The global-replace loop of line 469 after the first anchor: emit
characters verbatim, and at every `;`, if the fill pattern matches right
after it, emit the `;` (the `$1` back-reference) and continue after the
match. -/
def stripGo (l : List Char) : List Char :=
  match l with
  | [] => []
  | c :: r =>
    if c == ';' then
      match hm : fillAfterAnchor r with
      | some rest => c :: stripGo rest
      | none => c :: stripGo r
    else c :: stripGo r
termination_by l.length
decreasing_by
  · simp only [List.length_cons]
    exact Nat.lt_succ_of_le (fillAfterAnchor_length_le _ _ hm)
  · simp
  · simp

/-- `style.replace(/(^|;)\s*fill\s*:\s*[^;]+;?/ig, '$1')` (line 469):
the `^` alternative can only fire at position 0. -/
def stripFillDecls (l : List Char) : List Char :=
  match fillAfterAnchor l with
  | some rest => stripGo rest
  | none => stripGo l

/-- `isWhite` (part_000 lines 460-463). -/
def isWhite (v : Option String) : Bool :=
  let t := ((trimL (v.getD "").data).map Char.toLower).asString
  t == "#fff" || t == "#ffffff" || t == "white" || t == "rgb(255,255,255)"

/-- The per-`<rect>` rewrite of lines 464-471: when the fill attribute is
a recognized white or the inline style carries a white fill declaration,
force `fill="none"` and strip inline `fill:` declarations. -/
def rectFix (a : List (String × String)) : List (String × String) :=
  let fill := getAttr a "fill"
  let style := (getAttr a "style").getD ""
  if isWhite fill || whiteStyleTest style.data then
    setAttr (setAttr a "fill" "none") "style" (stripFillDecls style.data).asString
  else a

/-! ### Deep passes over descendants

`querySelectorAll` matches descendants of the root `<svg>` only, so each
pass transforms the root's child list. -/

mutual
/-- Apply an attribute rewrite at every descendant element. -/
def amapN (f : String → List (String × String) → List (String × String)) :
    XNode → XNode
  | .elem t a c => .elem t (f t a) (amapL f c)
  | .text s => .text s

/-- `amapN` over a child list. -/
def amapL (f : String → List (String × String) → List (String × String)) :
    List XNode → List XNode
  | [] => []
  | n :: ns => amapN f n :: amapL f ns
end

mutual
/-- Remove (with their subtrees) all descendant elements whose tag
satisfies `p`, as `querySelectorAll(tag).forEach(remove)` does:
`none` when the node itself is removed. -/
def rmvN (p : String → Bool) : XNode → Option XNode
  | .elem t a c => if p t then none else some (.elem t a (rmvL p c))
  | .text s => some (.text s)

/-- `rmvN` over a child list, dropping removed nodes. -/
def rmvL (p : String → Bool) : List XNode → List XNode
  | [] => []
  | n :: ns =>
    match rmvN p n with
    | some m => m :: rmvL p ns
    | none => rmvL p ns
end

/-- Whether a node is an element. -/
def isElemN : XNode → Bool
  | .elem _ _ _ => true
  | .text _ => false

/-- The style append of line 474:
`html.getAttribute('style') || ''` plus the forced background. -/
def foStyleAppend (bg : String) (a : List (String × String)) :
    List (String × String) :=
  setAttr a "style"
    (((getAttr a "style").getD "") ++ ";background:" ++ bg ++ " !important;")

mutual
/-- The `foreignObject` pass of lines 472-475.  `pend` is true while the
node is still a candidate for `fo.querySelector('*')` — the first
element child of a `foreignObject` parent; an element reached in that
position receives the forced background style.  Each `foreignObject`
element's own fix touches only its first element child's attributes,
which no other step of the pass reads, so visiting nodes in document
order with this pending flag reproduces the `forEach` exactly. -/
def foN (bg : String) : Bool → XNode → XNode
  | pend, .elem t a c =>
    .elem t (if pend then foStyleAppend bg a else a)
      (foC bg (t == "foreignObject") c)
  | _, .text s => .text s

/-- `foN` over a child list; the pending flag survives only until the
first element child. -/
def foC (bg : String) : Bool → List XNode → List XNode
  | _, [] => []
  | pend, n :: ns => foN bg pend n :: foC bg (pend && !(isElemN n)) ns
end

/-- Tag test of the `<style>` removal pass. -/
def pStyleTag (tg : String) : Bool := tg == "style"

/-- Tag test of the `<filter>` removal pass. -/
def pFilterTag (tg : String) : Bool := tg == "filter"

/-- Per-element rewrite of the `[filter]` attribute-stripping pass
(line 458). -/
def fFilAttr (_tg : String) (al : List (String × String)) :
    List (String × String) :=
  removeAttr al "filter"

/-- Per-element rewrite of the white-`<rect>` pass (lines 464-471):
only `rect` elements are touched. -/
def fRect (tg : String) (al : List (String × String)) :
    List (String × String) :=
  if tg == "rect" then rectFix al else al

/-- The whole `processSvg` mutation pipeline (lines 443-475) on the
`<svg>` element found by the parser, with `bg` the theme's
`overallBackground`: viewBox synthesis, scaling attributes, removal of
`<style>`/`<filter>` elements and `filter` attributes, the white-rect
rewrite, and the foreignObject background force. -/
def processSvgTree (bg : String) : XNode → XNode
  | .text s => .text s
  | .elem t a c =>
    .elem t (scaleFix (viewBoxFix a))
      (foC bg false
        (amapL fRect
          (amapL fFilAttr
            (rmvL pFilterTag
              (rmvL pStyleTag c)))))

/-! ### Predicates on trees, used to state when the sanitizer is
idempotent -/

/-- Whether a child list contains an element node. -/
def hasElemChildL : List XNode → Bool
  | [] => false
  | .elem _ _ _ :: _ => true
  | .text _ :: ns => hasElemChildL ns

mutual
/-- `p tag attrs` holds at every element of the tree. -/
def allAttrsN (p : String → List (String × String) → Bool) : XNode → Bool
  | .elem t a c => p t a && allAttrsL p c
  | .text _ => true

/-- `allAttrsN` over a child list. -/
def allAttrsL (p : String → List (String × String) → Bool) : List XNode → Bool
  | [] => true
  | n :: ns => allAttrsN p n && allAttrsL p ns
end

mutual
/-- No element of the tree has a tag satisfying `q`. -/
def noElemN (q : String → Bool) : XNode → Bool
  | .elem t _ c => !(q t) && noElemL q c
  | .text _ => true

/-- `noElemN` over a child list. -/
def noElemL (q : String → Bool) : List XNode → Bool
  | [] => true
  | n :: ns => noElemN q n && noElemL q ns
end

mutual
/-- No `foreignObject` element of the tree has an element child (the
target of `fo.querySelector('*')`). -/
def noFOContentN : XNode → Bool
  | .elem t _ c => (!(t == "foreignObject") || !(hasElemChildL c)) && noFOContentL c
  | .text _ => true

/-- `noFOContentN` over a child list. -/
def noFOContentL : List XNode → Bool
  | [] => true
  | n :: ns => noFOContentN n && noFOContentL ns
end

/-- A `rect` element whose inline style carries no `fill` declaration
(no match of the strip pattern); non-`rect` elements pass trivially. -/
def rectStyleOK (t : String) (a : List (String × String)) : Bool :=
  !(t == "rect") || !(hasFillDecl ((getAttr a "style").getD "").data)

/-! ### Serialization (`svg.outerHTML`) -/

/-- XML escaping for text content. -/
def escTextChar (c : Char) : List Char :=
  if c == '&' then "&amp;".data
  else if c == '<' then "&lt;".data
  else if c == '>' then "&gt;".data
  else [c]

/-- XML escaping for attribute values. -/
def escAttrChar (c : Char) : List Char :=
  if c == '&' then "&amp;".data
  else if c == '<' then "&lt;".data
  else if c == '"' then "&quot;".data
  else [c]

/-- Escape a string character-wise with `esc`. -/
def escWith (esc : Char → List Char) (s : String) : String :=
  (s.data.foldr (fun c acc => esc c ++ acc) []).asString

/-- Serialize an attribute list. -/
def serAttrs (a : List (String × String)) : String :=
  a.foldl (fun acc p => acc ++ " " ++ p.1 ++ "=\"" ++ escWith escAttrChar p.2 ++ "\"") ""

mutual
/-- `outerHTML` of a node. -/
def serN : XNode → String
  | .elem t a c =>
    if c.isEmpty then "<" ++ t ++ serAttrs a ++ "/>"
    else "<" ++ t ++ serAttrs a ++ ">" ++ serL c ++ "</" ++ t ++ ">"
  | .text s => escWith escTextChar s

/-- `serN` over a child list. -/
def serL : List XNode → String
  | [] => ""
  | n :: ns => serN n ++ serL ns
end

/-! ## Widget state and `processSvg` as a state transition
(part_000 lines 20-26 and 437-482) -/

/-- The component `State` (part_000 lines 20-26). -/
structure WidgetState where
  svgHtml : Option String
  isLoading : Bool
  error : Option String
  rawSvg : Option String
  expanded : Bool
deriving DecidableEq

/-- `processSvg(svgCode)` as a transition on the widget state.  `parse`
is the injected `DOMParser`/`querySelector('svg')` capability: the root
`<svg>` element of the parsed document, or `none` when none can be
found.  On parse failure only `error` and `isLoading` are written
(React `setState` merges); on success the sanitized serialization and
the retained raw string are stored. -/
def processSvgState (bg : String) (parse : String → Option XNode)
    (svgCode : String) (st : WidgetState) : WidgetState :=
  match parse svgCode with
  | none => { st with error := some "Invalid SVG content", isLoading := false }
  | some svg =>
    { st with
      svgHtml := some (serN (processSvgTree bg svg))
      isLoading := false
      error := none
      rawSvg := some svgCode }

/-! ## Concrete inputs used by the witnesses and counterexamples -/

/-- A valid timeseries entry (temperature 10 °C, wind 3 m/s). -/
def wEntry : TimeseriesEntry :=
  { time := some "2026-01-01T00:00:00Z"
    instant := { air_temperature := some 10, wind_speed := some 3 } }

/-- An entry lacking `air_temperature` (dropped by the transform). -/
def wEntryNoTemp : TimeseriesEntry :=
  { time := some "2026-01-01T01:00:00Z"
    instant := { wind_speed := some 3 } }

/-- A 60-entry forecast response of valid entries. -/
def wData60 : ForecastData :=
  { updated_at := some "2026-01-01T00:00:00Z"
    timeseries := some (List.replicate 60 wEntry) }

/-- The payload the transform produces for `wData60`. -/
def wPayload60 : ForecastPayload :=
  (transformForecast "now" wData60).getD ⟨"", []⟩

/-- An entry with a 6-hour precipitation accumulation of 12 mm and no
1-hour block. -/
def wEntryPrecip6 : TimeseriesEntry :=
  { time := some "2026-01-01T02:00:00Z"
    instant := { air_temperature := some 10, wind_speed := some 3 }
    next_6_hours := some { precipitation_amount := some 12 } }

/-- The point produced for `wEntryPrecip6`. -/
def wPointPrecip6 : ForecastPoint :=
  (mkPoint wEntryPrecip6).getD ⟨"", 0, 0, none, none⟩

/-- A forecast point for the chart-scale witness. -/
def wChartPoint : ForecastPoint := ⟨"2026-01-01T00:00:00Z", 10, 3, none, none⟩

/-- A retained document that starts with the XML prologue — exactly the
shape every `generateForecastSvg` output has (part_000 line 403) and
that the direct fetch accepts verbatim (line 134). -/
def staleXmlDoc : String :=
  "<?xml version=\"1.0\" encoding=\"UTF-8\"?><svg viewBox=\"0 0 1 1\"></svg>"

/-- A well-formed SVG containing a `foreignObject` with a content
element, for the idempotence counterexample. -/
def cexSvg : XNode :=
  .elem "svg" [("viewBox", "0 0 10 10")]
    [.elem "foreignObject" [] [.elem "div" [] []]]

/-- A well-formed SVG (white rect, style element, filter reference) with
no `foreignObject` content and no inline `fill` declarations, for the
idempotence witness. -/
def witSvg : XNode :=
  .elem "svg" [("width", "100px"), ("height", "50")]
    [.elem "style" [] [.text "rect \x7b stroke: red \x7d"],
     .elem "g" [("filter", "url(#f)")]
       [.elem "rect" [("fill", "#FFFFFF"), ("style", "stroke:black")] [],
        .elem "filter" [("id", "f")] []],
     .elem "foreignObject" [] [.text "plain text"]]

/-- The URL of the spec's coordinate-extraction example. -/
def exUrl : String := "https://x/y/60.10,10.75/z"

/-- The coordinates extracted from `exUrl`. -/
def exCoords : Coordinates := (extractCoordinates exUrl).getD ⟨0, 0⟩

/-- A URL whose matching path segment carries out-of-range coordinates. -/
def c9url : String := "https://h/123.5,999.5"

/-- The coordinates extracted from `c9url`. -/
def c9coords : Coordinates := (extractCoordinates c9url).getD ⟨0, 0⟩

/-! ## Theorems -/

/-- The loop body retains exactly the valid entries, projected by
`entryPoint`. -/
theorem mkPoint_eq (e : TimeseriesEntry) :
    mkPoint e = if entryValid e then some (entryPoint e) else none := by
  unfold mkPoint entryValid entryPoint specGust specPrecip
  cases jsTruthy e.time with
  | none => simp
  | some t =>
    cases e.instant.air_temperature with
    | none => simp
    | some temp =>
      cases e.instant.wind_speed with
      | none => simp
      | some ws =>
        simp only [Option.isSome_some, Bool.and_self, if_true]
        cases e.instant.wind_speed_of_gust with
        | some g =>
          cases h2 : e.next_1_hours.bind NextHoursDetails.precipitation_amount with
          | some q => simp [h2]
          | none => simp [h2]
        | none =>
          cases h1 : e.next_1_hours.bind NextHoursDetails.wind_speed_of_gust with
          | some g =>
            cases h2 : e.next_1_hours.bind NextHoursDetails.precipitation_amount with
            | some q => simp [h1, h2]
            | none => simp [h1, h2]
          | none =>
            cases h2 : e.next_1_hours.bind NextHoursDetails.precipitation_amount with
            | some q => simp [h1, h2]
            | none => simp [h1, h2]

/-- `filterMap` of the loop body is filter-then-project. -/
theorem filterMap_mkPoint (l : List TimeseriesEntry) :
    l.filterMap mkPoint = (l.filter entryValid).map entryPoint := by
  induction l with
  | nil => rfl
  | cons e es ih =>
    simp only [List.filterMap_cons, List.filter_cons, mkPoint_eq]
    by_cases h : entryValid e
    · simp [h, ih]
    · simp [h, ih]

/-- C4: `transformForecast` reads only the first 48 timeseries entries
and outputs exactly the order-preserving subsequence of those entries
that carry a timestamp and numeric temperature and wind speed; in
particular 48 or more valid entries among the first 48 yield exactly 48
points, and invalid entries are dropped without affecting the remaining
points. -/
theorem transformForecast_first48 :
    (∀ (now : String) (d : ForecastData) (payload : ForecastPayload),
      transformForecast now d = some payload →
      payload.points =
        (((d.timeseries.getD []).take 48).filter entryValid).map entryPoint) ∧
    (∀ (now : String) (d : ForecastData) (payload : ForecastPayload),
      transformForecast now d = some payload →
      48 ≤ (d.timeseries.getD []).length →
      (∀ e ∈ (d.timeseries.getD []).take 48, entryValid e = true) →
      payload.points.length = 48) := by
  have main : ∀ (now : String) (d : ForecastData) (payload : ForecastPayload),
      transformForecast now d = some payload →
      payload.points =
        (((d.timeseries.getD []).take 48).filter entryValid).map entryPoint := by
    intro now d payload h
    simp only [transformForecast] at h
    split at h
    · exact absurd h (by simp)
    · split at h
      · exact absurd h (by simp)
      · cases h
        exact filterMap_mkPoint _
  refine ⟨main, ?_⟩
  intro now d payload h hlen hvalid
  rw [main now d payload h]
  have hfilter : ((d.timeseries.getD []).take 48).filter entryValid =
      (d.timeseries.getD []).take 48 :=
    List.filter_eq_self.mpr hvalid
  rw [hfilter]
  simp [List.length_take]
  omega

/-- Witness for C4: 60 valid entries yield exactly 48 points. -/
theorem transformForecast_first48_witness : wPayload60.points.length = 48 := by
  refine transformForecast_first48.2 "now" wData60 wPayload60 rfl (by decide) (by decide)

/-- C5: for every retained entry, the output gust follows the
instantaneous / next-1-hour / next-6-hour resolution order and the
precipitation follows next-1-hour, else next-6-hour divided by 6; a
6-hour accumulation of 12 with no 1-hour block yields 2. -/
theorem mkPoint_resolution_order (e : TimeseriesEntry) (p : ForecastPoint)
    (h : mkPoint e = some p) :
    p.windGust = specGust e ∧ p.precipitation = specPrecip e ∧
    (e.next_1_hours = none →
      e.next_6_hours.bind NextHoursDetails.precipitation_amount = some 12 →
      p.precipitation = some 2) := by
  rw [mkPoint_eq] at h
  split at h
  · cases h
    refine ⟨rfl, rfl, ?_⟩
    intro h1 h6
    show specPrecip e = some 2
    unfold specPrecip
    rw [h1, h6]
    simp only [Option.none_bind, Option.none_orElse, Option.map_some]
    norm_num
  · exact absurd h (by simp)

/-- Witness for C5: the concrete 12-mm 6-hour entry yields 2 mm. -/
theorem mkPoint_resolution_order_witness : wPointPrecip6.precipitation = some 2 :=
  (mkPoint_resolution_order wEntryPrecip6 wPointPrecip6 rfl).2.2 rfl rfl

/-- The last attempt made never exceeds 5 when starting at `k ≤ 5`. -/
theorem runRetry_attempts_le (res : ℕ → Bool) :
    ∀ (m k : ℕ), k ≤ 5 → 5 - k ≤ m → (runRetry res k).2.1 ≤ 5 := by
  intro m
  induction m with
  | zero =>
    intro k hk hm
    have hk5 : k = 5 := by omega
    subst hk5
    unfold runRetry
    split
    · simp
    · split
      · rename_i hlt
        exact absurd hlt (by omega)
      · simp
  | succ m ih =>
    intro k hk hm
    unfold runRetry
    split
    · simpa using hk
    · split
      · rename_i hlt
        have := ih (k + 1) (by omega) (by omega)
        simpa using this
      · simpa using hk

/-- C6: on a fetch failure at attempt `k < 5` exactly one retry runs
after `1000 * k` ms and no terminal state is entered; at most 5 attempts
are ever made; in particular four failures followed by a success on
attempt 5 reach `Ready` after delays 1000, 2000, 3000, 4000 ms. -/
theorem retry_backoff_schedule :
    (∀ res : ℕ → Bool, (runRetry res 1).2.1 ≤ 5) ∧
    (∀ res : ℕ → Bool, res 1 = false → res 2 = false → res 3 = false →
      res 4 = false → res 5 = true →
      runRetry res 1 = ([1000, 2000, 3000, 4000], 5, true)) := by
  constructor
  · intro res
    exact runRetry_attempts_le res 5 1 (by omega) (by omega)
  · intro res h1 h2 h3 h4 h5
    simp [runRetry, h1, h2, h3, h4, h5]

/-- Witness for C6: the schedule for a source failing exactly on
attempts 1-4. -/
theorem retry_backoff_schedule_witness :
    runRetry (fun k => decide (k = 5)) 1 = ([1000, 2000, 3000, 4000], 5, true) :=
  retry_backoff_schedule.2 (fun k => decide (k = 5))
    (by decide) (by decide) (by decide) (by decide) (by decide)

/-- Members bound the fold of `max`. -/
theorem mem_le_foldr_max (l : List ℚ) (a x : ℚ) (h : x ∈ l) :
    x ≤ l.foldr max a := by
  induction l with
  | nil => cases h
  | cons y ys ih =>
    rcases List.mem_cons.mp h with rfl | hmem
    · exact le_max_left _ _
    · exact le_trans (ih hmem) (le_max_right _ _)

/-- The fold of `min` bounds members. -/
theorem foldr_min_le_mem (l : List ℚ) (a x : ℚ) (h : x ∈ l) :
    l.foldr min a ≤ x := by
  induction l with
  | nil => cases h
  | cons y ys ih =>
    rcases List.mem_cons.mp h with rfl | hmem
    · exact min_le_left _ _
    · exact le_trans (min_le_right _ _) (ih hmem)

/-- C7: for every point of a rendered series, its temperature
y-coordinate lies inside the temperature band
`[margin.top, margin.top + tempSection]`. -/
theorem tempY_in_band (pts : List ForecastPoint) (p : ForecastPoint)
    (hmem : p ∈ pts) :
    marginTop ≤ tempY (pts.map ForecastPoint.temperature) p.temperature ∧
    tempY (pts.map ForecastPoint.temperature) p.temperature ≤
      marginTop + tempSection := by
  set temps := pts.map ForecastPoint.temperature with htemps
  have hx : p.temperature ∈ temps :=
    htemps ▸ List.mem_map_of_mem ForecastPoint.temperature hmem
  have hmax : p.temperature ≤ tempMaxOf temps := mem_le_foldr_max _ _ _ hx
  have hmin : tempMinOf temps ≤ p.temperature := foldr_min_le_mem _ _ _ hx
  have hr5 : (5 : ℚ) ≤ tempRangeOf temps := le_max_right _ _
  have hrpos : (0 : ℚ) < tempRangeOf temps := lt_of_lt_of_le (by norm_num) hr5
  have hdiff : tempMaxOf temps - p.temperature ≤ tempRangeOf temps :=
    le_trans (by linarith) (le_max_left _ _)
  have hsec : (0 : ℚ) ≤ tempSection := by
    norm_num [tempSection, innerHeight, chartHeight, marginTop, marginBottom]
  constructor
  · have hnn : 0 ≤ (tempMaxOf temps - p.temperature) / tempRangeOf temps * tempSection :=
      mul_nonneg (div_nonneg (by linarith) (le_of_lt hrpos)) hsec
    unfold tempY
    linarith
  · have h1 : (tempMaxOf temps - p.temperature) / tempRangeOf temps ≤ 1 :=
      (div_le_one hrpos).mpr hdiff
    have h0 : 0 ≤ (tempMaxOf temps - p.temperature) / tempRangeOf temps :=
      div_nonneg (by linarith) (le_of_lt hrpos)
    have hle : (tempMaxOf temps - p.temperature) / tempRangeOf temps * tempSection ≤
        tempSection := by
      nlinarith
    unfold tempY
    linarith

/-- Witness for C7 at a one-point series. -/
theorem tempY_in_band_witness :
    marginTop ≤ tempY ([wChartPoint].map ForecastPoint.temperature)
      wChartPoint.temperature ∧
    tempY ([wChartPoint].map ForecastPoint.temperature) wChartPoint.temperature ≤
      marginTop + tempSection :=
  tempY_in_band [wChartPoint] wChartPoint (List.Mem.head _)

/-- C10: when no root `<svg>` element can be parsed, `processSvg` sets
the error message and clears the loading flag while leaving `rawSvg`,
`svgHtml` and `expanded` untouched. -/
theorem processSvg_parse_failure_frame (bg : String)
    (parse : String → Option XNode) (svgCode : String) (st : WidgetState)
    (h : parse svgCode = none) :
    (processSvgState bg parse svgCode st).error = some "Invalid SVG content" ∧
    (processSvgState bg parse svgCode st).isLoading = false ∧
    (processSvgState bg parse svgCode st).svgHtml = st.svgHtml ∧
    (processSvgState bg parse svgCode st).rawSvg = st.rawSvg ∧
    (processSvgState bg parse svgCode st).expanded = st.expanded := by
  simp [processSvgState, h]

/-- Witness for C10 on a concrete state with retained content. -/
theorem processSvg_parse_failure_frame_witness :
    (processSvgState "#fff" (fun _ => none) "not svg"
        ⟨some "<svg/>", true, none, some "<svg/>", false⟩).rawSvg = some "<svg/>" :=
  (processSvg_parse_failure_frame "#fff" (fun _ => none) "not svg"
      ⟨some "<svg/>", true, none, some "<svg/>", false⟩ rfl).2.2.2.1

/-- C1 counterexample: a document acquirable (and persisted/retainable)
through both paths that starts with the XML prologue — the shape of
every forecast-generated chart — fails the `startsWith('<svg')` fallback
guard, so the attempt-5 failure handlers produce `Failed` (forecast
path) and the degraded external view (direct path) instead of `Ready`
with the stale document. -/
theorem stale_fallback_counterexample :
    (directFetchSuccess staleXmlDoc none).isSome = true ∧
    ((directFetchSuccess staleXmlDoc none).getD ⟨"", false⟩).svgString = staleXmlDoc ∧
    finalFailureForecast (some staleXmlDoc) none =
      .failed "Unable to load forecast data." ∧
    finalFailureDirect (some staleXmlDoc) none "https://u" = .degraded "https://u" ∧
    finalFailureForecast none (some staleXmlDoc) =
      .failed "Unable to load forecast data." := by
  refine ⟨by decide, by decide, by decide, by decide, by decide⟩

/-- C1 (amended): when the retained document (state `rawSvg`, else the
configured `svgCode`) is truthy and its trimmed text starts with
`<svg`, all three attempt-5 failure handlers re-sanitize that stale
document (the `Ready`-with-stale-document route) instead of failing or
degrading. -/
theorem stale_fallback_on_final_failure (rawSvg svgCode : Option String)
    (fb u : String) (hfb : fallbackDoc rawSvg svgCode = some fb)
    (hq : fallbackQualifies fb = true) :
    finalFailureForecast rawSvg svgCode = .useFallback fb ∧
    finalFailureDirect rawSvg svgCode u = .useFallback fb ∧
    finalFailureDirectLegacy rawSvg svgCode = .useFallback fb := by
  unfold finalFailureForecast finalFailureDirect finalFailureDirectLegacy
  rw [hfb]
  simp [hq]

/-- Witness for the amended C1. -/
theorem stale_fallback_on_final_failure_witness :
    finalFailureForecast (some "<svg viewBox=\"0 0 1 1\"></svg>") none =
      .useFallback "<svg viewBox=\"0 0 1 1\"></svg>" :=
  (stale_fallback_on_final_failure (some "<svg viewBox=\"0 0 1 1\"></svg>") none
    "<svg viewBox=\"0 0 1 1\"></svg>" "https://u" (by decide) (by decide)).1

/-- C8 counterexample: a successful direct acquisition whose body starts
with the XML prologue is processed and retained but NOT written back to
the configuration (`persisted = false`), refuting persist-on-success for
every successful acquisition. -/
theorem persist_on_success_counterexample :
    directFetchSuccess staleXmlDoc none = some ⟨staleXmlDoc, false⟩ := by
  decide

/-- C8 (amended): the direct path persists the acquired string into
`svgCode` exactly when it starts with `<svg`; the forecast path persists
its rendered chart unconditionally. -/
theorem persist_on_success (body : String) (htmlSvg : Option String)
    (render : ForecastPayload → String) (payload : Option ForecastPayload)
    (effD effF : SuccessEffects)
    (hD : directFetchSuccess body htmlSvg = some effD)
    (hF : forecastFetchSuccess render payload = some effF) :
    (effD.persisted = true ↔ startsWithL "<svg".data effD.svgString.data = true) ∧
    effF.persisted = true := by
  constructor
  · simp only [directFetchSuccess] at hD
    split at hD
    · cases hD
      exact Iff.rfl
    · split at hD
      · cases hD
        exact Iff.rfl
      · exact absurd hD (by simp)
  · unfold forecastFetchSuccess at hF
    split at hF
    · split at hF
      · exact absurd hF (by simp)
      · cases hF
        rfl
    · exact absurd hF (by simp)

/-- Witness for the amended C8. -/
theorem persist_on_success_witness :
    (((directFetchSuccess "<svg/>" none).getD ⟨"", false⟩).persisted = true ↔
      startsWithL "<svg".data
        ((directFetchSuccess "<svg/>" none).getD ⟨"", false⟩).svgString.data = true) ∧
    ((forecastFetchSuccess (fun _ => "<svg/>")
        (some ⟨"u", [wChartPoint]⟩)).getD ⟨"", false⟩).persisted = true :=
  persist_on_success "<svg/>" none (fun _ => "<svg/>") (some ⟨"u", [wChartPoint]⟩)
    ((directFetchSuccess "<svg/>" none).getD ⟨"", false⟩)
    ((forecastFetchSuccess (fun _ => "<svg/>") (some ⟨"u", [wChartPoint]⟩)).getD
      ⟨"", false⟩) rfl rfl

/-- C3 counterexample: the segment `x60.10,10.75` passes the unanchored
regex test and is the first matching segment, but its first
comma-separated component `x60.10` parses to `NaN`, so the function
returns the negative result instead of the parsed pair. -/
theorem extractCoordinates_counterexample :
    coordTest "x60.10,10.75".data = true ∧
    ((splitOnCharL '/' ((urlPathname "https://h/x60.10,10.75").getD [])).filter
        fun s => !s.isEmpty).find? coordTest = some "x60.10,10.75".data ∧
    jsParseFloat "x60.10" = JSNum.nan ∧
    extractCoordinates "https://h/x60.10,10.75" = none := by
  refine ⟨by decide, by decide, by decide, by decide⟩

/-- C3 (amended): `extractCoordinates` never throws (URL-parse failure
gives `none`); with no regex-matching path segment it returns `none`;
when the first matching segment's first two comma components both
`parseFloat` to finite numbers it returns exactly that pair — and on
the spec's example URL it returns `{lat: 60.10, lon: 10.75}`. -/
theorem extractCoordinates_characterization :
    (∀ url : String, urlPathname url = none → extractCoordinates url = none) ∧
    (∀ (url : String) (path : List Char), urlPathname url = some path →
      ((splitOnCharL '/' path).filter fun s => !s.isEmpty).find? coordTest = none →
      extractCoordinates url = none) ∧
    (∀ (url : String) (path seg : List Char) (la lo : ℚ),
      urlPathname url = some path →
      ((splitOnCharL '/' path).filter fun s => !s.isEmpty).find? coordTest =
        some seg →
      jsParseFloat ((splitOnCharL ',' seg).headD []).asString = .val la →
      ((splitOnCharL ',' seg).tail.head?).elim JSNum.nan
        (fun p => jsParseFloat p.asString) = .val lo →
      extractCoordinates url = some ⟨la, lo⟩) ∧
    extractCoordinates exUrl = some ⟨601 / 10, 43 / 4⟩ := by
  refine ⟨?_, ?_, ?_, ?_⟩
  · intro url h
    unfold extractCoordinates
    rw [h]
  · intro url path hpath hfind
    unfold extractCoordinates
    rw [hpath]
    simp only [hfind]
  · intro url path seg la lo hpath hfind hla hlo
    unfold extractCoordinates
    rw [hpath]
    simp only [hfind]
    rw [hla]
    cases hh : (splitOnCharL ',' seg).tail.head? with
    | none =>
      rw [hh] at hlo
      exact absurd hlo (by simp [Option.elim])
    | some p =>
      rw [hh] at hlo
      simp only [Option.elim] at hlo
      simp [hlo]
  · have h0 : extractCoordinates exUrl = some exCoords := rfl
    have hla : exCoords.lat = 601 / 10 := by
      have h1 : exCoords.lat = ((60 : ℕ) : ℚ) + ((10 : ℕ) : ℚ) / (10 : ℚ) ^ (2 : ℕ) := rfl
      rw [h1]
      norm_num
    have hlo : exCoords.lon = 43 / 4 := by
      have h1 : exCoords.lon = ((10 : ℕ) : ℚ) + ((75 : ℕ) : ℚ) / (10 : ℚ) ^ (2 : ℕ) := rfl
      rw [h1]
      norm_num
    rw [h0, ← hla, ← hlo]

/-- Witness for the amended C3 on the spec's example URL. -/
theorem extractCoordinates_characterization_witness :
    extractCoordinates exUrl =
      some ⟨(jsParseFloat "60.10").valD 0, (jsParseFloat "10.75").valD 0⟩ :=
  extractCoordinates_characterization.2.2.1 exUrl
    ((urlPathname exUrl).getD []) "60.10,10.75".data
    ((jsParseFloat "60.10").valD 0) ((jsParseFloat "10.75").valD 0)
    rfl (by decide) rfl rfl

/-- C9 counterexample: the returned coordinates carry no range check —
`123.5,999.5` comes back as-is with `lat > 90` and `lon > 180`. -/
theorem coordinates_bounds_counterexample :
    extractCoordinates c9url = some c9coords ∧
    90 < c9coords.lat ∧ 180 < c9coords.lon := by
  refine ⟨rfl, ?_, ?_⟩
  · have h : c9coords.lat = ((123 : ℕ) : ℚ) + ((5 : ℕ) : ℚ) / (10 : ℚ) ^ (1 : ℕ) := rfl
    rw [h]
    norm_num
  · have h : c9coords.lon = ((999 : ℕ) : ℚ) + ((5 : ℕ) : ℚ) / (10 : ℚ) ^ (1 : ℕ) := rfl
    rw [h]
    norm_num

/-- C9 (amended): every returned `Coordinates` comes from a
regex-matching path segment whose first two comma components passed the
`parseFloat` + `Number.isFinite` gate (finiteness holds by
construction); no latitude/longitude range is enforced. -/
theorem coordinates_finite_provenance (url : String) (c : Coordinates)
    (h : extractCoordinates url = some c) :
    ∃ path seg : List Char,
      urlPathname url = some path ∧
      seg ∈ (splitOnCharL '/' path).filter (fun s => !s.isEmpty) ∧
      coordTest seg = true ∧
      jsParseFloat ((splitOnCharL ',' seg).headD []).asString = .val c.lat ∧
      ((splitOnCharL ',' seg).tail.head?).elim JSNum.nan
        (fun p => jsParseFloat p.asString) = .val c.lon := by
  simp only [extractCoordinates] at h
  split at h
  · exact absurd h (by simp)
  · rename_i path hpath
    split at h
    · exact absurd h (by simp)
    · rename_i seg hfind
      refine ⟨path, seg, hpath, List.mem_of_find?_eq_some hfind, ?_, ?_⟩
      · have := List.find?_some hfind
        exact this
      · split at h
        · rename_i la lo hla hlo
          cases h
          refine ⟨hla, ?_⟩
          cases hh : (splitOnCharL ',' seg).tail.head? with
          | none =>
            rw [hh] at hlo
            simpa [Option.elim, hh] using hlo
          | some p =>
            rw [hh] at hlo
            simpa [Option.elim, hh] using hlo
        · exact absurd h (by simp)

/-- Witness for the amended C9. -/
theorem coordinates_finite_provenance_witness :
    ∃ path seg : List Char,
      urlPathname exUrl = some path ∧
      seg ∈ (splitOnCharL '/' path).filter (fun s => !s.isEmpty) ∧
      coordTest seg = true ∧
      jsParseFloat ((splitOnCharL ',' seg).headD []).asString = .val exCoords.lat ∧
      ((splitOnCharL ',' seg).tail.head?).elim JSNum.nan
        (fun p => jsParseFloat p.asString) = .val exCoords.lon :=
  coordinates_finite_provenance exUrl exCoords rfl

/-! ### Sanitizer idempotence toolkit -/

/-- Simultaneous induction over nodes and child lists. -/
theorem xnodeInd (P : XNode → Prop) (Q : List XNode → Prop)
    (helem : ∀ t a c, Q c → P (.elem t a c))
    (htext : ∀ s, P (.text s))
    (hnil : Q [])
    (hcons : ∀ n ns, P n → Q ns → Q (n :: ns)) :
    (∀ n, P n) ∧ (∀ c, Q c) :=
  have hn : ∀ n, P n := fun n => XNode.rec helem htext hnil hcons n
  ⟨hn, fun c => List.rec hnil (fun n ns ih => hcons n ns (hn n) ih) c⟩

/-- Reading back the attribute just set. -/
theorem getAttr_setAttr_self (a : List (String × String)) (n v : String) :
    getAttr (setAttr a n v) n = some v := by
  induction a with
  | nil => simp [setAttr, getAttr]
  | cons x xs ih =>
    obtain ⟨m, w⟩ := x
    by_cases h : m = n
    · simp [setAttr, getAttr, h]
    · simp [setAttr, getAttr, h, ih]

/-- Setting one attribute does not disturb another. -/
theorem getAttr_setAttr_ne (a : List (String × String)) (n v m : String)
    (hmn : m ≠ n) : getAttr (setAttr a n v) m = getAttr a m := by
  induction a with
  | nil => simp [setAttr, getAttr, Ne.symm hmn]
  | cons x xs ih =>
    obtain ⟨k, w⟩ := x
    by_cases h : k = n
    · subst h
      simp [setAttr, getAttr, Ne.symm hmn]
    · by_cases hk : k = m
      · subst hk
        simp [setAttr, getAttr, h]
      · simp [setAttr, getAttr, h, hk, ih]

/-- The removed attribute is gone. -/
theorem getAttr_removeAttr_self (a : List (String × String)) (n : String) :
    getAttr (removeAttr a n) n = none := by
  induction a with
  | nil => simp [removeAttr, getAttr]
  | cons x xs ih =>
    obtain ⟨m, w⟩ := x
    by_cases h : m = n
    · simp [removeAttr, getAttr, h, ih]
    · simp [removeAttr, getAttr, h, ih]

/-- Removing one attribute does not disturb another. -/
theorem getAttr_removeAttr_ne (a : List (String × String)) (n m : String)
    (hmn : m ≠ n) : getAttr (removeAttr a n) m = getAttr a m := by
  induction a with
  | nil => simp [removeAttr, getAttr]
  | cons x xs ih =>
    obtain ⟨k, w⟩ := x
    by_cases h : k = n
    · subst h
      simp [removeAttr, getAttr, Ne.symm hmn, ih]
    · by_cases hk : k = m
      · subst hk
        simp [removeAttr, getAttr, h]
      · simp [removeAttr, getAttr, h, hk, ih]

/-- Removing an absent attribute is a no-op. -/
theorem removeAttr_id (a : List (String × String)) (n : String)
    (h : getAttr a n = none) : removeAttr a n = a := by
  induction a with
  | nil => rfl
  | cons x xs ih =>
    obtain ⟨m, w⟩ := x
    by_cases hm : m = n
    · simp [getAttr, hm] at h
    · have hrest : getAttr xs n = none := by
        simpa [getAttr, hm] using h
      simp [removeAttr, hm, ih hrest]

/-- After `scaleFix` the `width` attribute is gone. -/
theorem scaleFix_width_none (a : List (String × String)) :
    getAttr (scaleFix a) "width" = none := by
  simp only [scaleFix]
  split
  · rename_i v hv
    split
    · rw [getAttr_setAttr_ne _ _ _ _ (by decide)]
      rw [getAttr_removeAttr_ne _ _ _ (by decide)]
      exact getAttr_removeAttr_self _ _
    · rw [getAttr_removeAttr_ne _ _ _ (by decide)]
      exact getAttr_removeAttr_self _ _
  · rw [getAttr_setAttr_ne _ _ _ _ (by decide)]
    rw [getAttr_removeAttr_ne _ _ _ (by decide)]
    exact getAttr_removeAttr_self _ _

/-- After `scaleFix` the `height` attribute is gone. -/
theorem scaleFix_height_none (a : List (String × String)) :
    getAttr (scaleFix a) "height" = none := by
  simp only [scaleFix]
  split
  · rename_i v hv
    split
    · rw [getAttr_setAttr_ne _ _ _ _ (by decide)]
      exact getAttr_removeAttr_self _ _
    · exact getAttr_removeAttr_self _ _
  · rw [getAttr_setAttr_ne _ _ _ _ (by decide)]
    exact getAttr_removeAttr_self _ _

/-- After `scaleFix`, `preserveAspectRatio` is present and truthy. -/
theorem scaleFix_pAR_truthy (a : List (String × String)) :
    ∃ v, getAttr (scaleFix a) "preserveAspectRatio" = some v ∧ v ≠ "" := by
  simp only [scaleFix]
  split
  · rename_i v hv
    split
    · exact ⟨"xMidYMid meet", getAttr_setAttr_self _ _ _, by decide⟩
    · exact ⟨v, hv, by assumption⟩
  · exact ⟨"xMidYMid meet", getAttr_setAttr_self _ _ _, by decide⟩

/-- `viewBoxFix` touches only the `viewBox` attribute. -/
theorem viewBoxFix_getAttr_ne (a : List (String × String)) (m : String)
    (hm : m ≠ "viewBox") : getAttr (viewBoxFix a) m = getAttr a m := by
  unfold viewBoxFix
  split
  · split
    · split
      · exact getAttr_setAttr_ne _ _ _ _ hm
      · rfl
    · rfl
  · rfl

/-- `viewBoxFix` is a no-op once `width` is absent. -/
theorem viewBoxFix_id_of_width_none (a : List (String × String))
    (h : getAttr a "width" = none) : viewBoxFix a = a := by
  unfold viewBoxFix
  split
  · rw [h]
    rfl
  · rfl

/-- `scaleFix` is a no-op on already-fixed attributes. -/
theorem scaleFix_id (a : List (String × String))
    (hw : getAttr a "width" = none) (hh : getAttr a "height" = none)
    (hp : ∃ v, getAttr a "preserveAspectRatio" = some v ∧ v ≠ "") :
    scaleFix a = a := by
  obtain ⟨v, hv, hne⟩ := hp
  simp only [scaleFix]
  rw [removeAttr_id _ _ hw, removeAttr_id _ _ hh, hv]
  simp [hne]

/-- The root-attribute steps are idempotent. -/
theorem rootFix_idem (a : List (String × String)) :
    scaleFix (viewBoxFix (scaleFix (viewBoxFix a))) = scaleFix (viewBoxFix a) := by
  have hw : getAttr (scaleFix (viewBoxFix a)) "width" = none := scaleFix_width_none _
  have h1 : viewBoxFix (scaleFix (viewBoxFix a)) = scaleFix (viewBoxFix a) :=
    viewBoxFix_id_of_width_none _ hw
  rw [h1]
  exact scaleFix_id _ (scaleFix_width_none _) (scaleFix_height_none _)
    (scaleFix_pAR_truthy _)

/-- Removal leaves no matching element behind. -/
theorem rmv_sound (q : String → Bool) :
    (∀ n m, rmvN q n = some m → noElemN q m = true) ∧
    (∀ c, noElemL q (rmvL q c) = true) := by
  refine xnodeInd (fun n => ∀ m, rmvN q n = some m → noElemN q m = true)
    (fun c => noElemL q (rmvL q c) = true) ?_ ?_ ?_ ?_
  · intro t a c ihc m hm
    simp only [rmvN] at hm
    split at hm
    · cases hm
    · rename_i hqt
      cases hm
      simp only [Bool.not_eq_true] at hqt
      simp [noElemN, hqt, ihc]
  · intro s m hm
    simp only [rmvN] at hm
    cases hm
    rfl
  · rfl
  · intro n ns ihn ihns
    simp only [rmvL]
    cases hn : rmvN q n with
    | some m => simp [noElemL, ihn m hn, ihns]
    | none => exact ihns

/-- Removal is a no-op on trees with no matching element. -/
theorem rmv_id (q : String → Bool) :
    (∀ n, noElemN q n = true → rmvN q n = some n) ∧
    (∀ c, noElemL q c = true → rmvL q c = c) := by
  refine xnodeInd (fun n => noElemN q n = true → rmvN q n = some n)
    (fun c => noElemL q c = true → rmvL q c = c) ?_ ?_ ?_ ?_
  · intro t a c ihc h
    simp only [noElemN, Bool.and_eq_true, Bool.not_eq_true'] at h
    simp [rmvN, h.1, ihc h.2]
  · intro s _
    rfl
  · intro _
    rfl
  · intro n ns ihn ihns h
    simp only [noElemL, Bool.and_eq_true] at h
    simp [rmvL, ihn h.1, ihns h.2]

/-- Removal preserves tag-absence facts. -/
theorem rmv_pres_noElem (q q' : String → Bool) :
    (∀ n m, rmvN q n = some m → noElemN q' n = true → noElemN q' m = true) ∧
    (∀ c, noElemL q' c = true → noElemL q' (rmvL q c) = true) := by
  refine xnodeInd
    (fun n => ∀ m, rmvN q n = some m → noElemN q' n = true → noElemN q' m = true)
    (fun c => noElemL q' c = true → noElemL q' (rmvL q c) = true) ?_ ?_ ?_ ?_
  · intro t a c ihc m hm h
    simp only [rmvN] at hm
    split at hm
    · cases hm
    · cases hm
      simp only [noElemN, Bool.and_eq_true] at h ⊢
      exact ⟨h.1, ihc h.2⟩
  · intro s m hm _
    simp only [rmvN] at hm
    cases hm
    rfl
  · intro _
    rfl
  · intro n ns ihn ihns h
    simp only [noElemL, Bool.and_eq_true] at h
    simp only [rmvL]
    cases hn : rmvN q n with
    | some m => simp [noElemL, ihn m hn h.1, ihns h.2]
    | none => exact ihns h.2

/-- Removal preserves per-element attribute facts. -/
theorem rmv_pres_allAttrs (q : String → Bool)
    (p : String → List (String × String) → Bool) :
    (∀ n m, rmvN q n = some m → allAttrsN p n = true → allAttrsN p m = true) ∧
    (∀ c, allAttrsL p c = true → allAttrsL p (rmvL q c) = true) := by
  refine xnodeInd
    (fun n => ∀ m, rmvN q n = some m → allAttrsN p n = true → allAttrsN p m = true)
    (fun c => allAttrsL p c = true → allAttrsL p (rmvL q c) = true) ?_ ?_ ?_ ?_
  · intro t a c ihc m hm h
    simp only [rmvN] at hm
    split at hm
    · cases hm
    · cases hm
      simp only [allAttrsN, Bool.and_eq_true] at h ⊢
      exact ⟨h.1, ihc h.2⟩
  · intro s m hm _
    simp only [rmvN] at hm
    cases hm
    rfl
  · intro _
    rfl
  · intro n ns ihn ihns h
    simp only [allAttrsL, Bool.and_eq_true] at h
    simp only [rmvL]
    cases hn : rmvN q n with
    | some m => simp [allAttrsL, ihn m hn h.1, ihns h.2]
    | none => exact ihns h.2

/-- Removal cannot create an element child. -/
theorem rmvL_hasElemChild (q : String → Bool) (c : List XNode)
    (h : hasElemChildL c = false) : hasElemChildL (rmvL q c) = false := by
  induction c with
  | nil => exact h
  | cons n ns ih =>
    cases n with
    | elem t a c' => simp [hasElemChildL] at h
    | text s =>
      simp only [hasElemChildL] at h
      simp [rmvL, rmvN, hasElemChildL, ih h]

/-- Removal preserves the no-`foreignObject`-content invariant. -/
theorem rmv_pres_noFOContent (q : String → Bool) :
    (∀ n m, rmvN q n = some m → noFOContentN n = true → noFOContentN m = true) ∧
    (∀ c, noFOContentL c = true → noFOContentL (rmvL q c) = true) := by
  refine xnodeInd
    (fun n => ∀ m, rmvN q n = some m → noFOContentN n = true → noFOContentN m = true)
    (fun c => noFOContentL c = true → noFOContentL (rmvL q c) = true) ?_ ?_ ?_ ?_
  · intro t a c ihc m hm h
    simp only [rmvN] at hm
    split at hm
    · cases hm
    · cases hm
      simp only [noFOContentN, Bool.and_eq_true, Bool.or_eq_true,
        Bool.not_eq_true'] at h ⊢
      refine ⟨?_, ihc h.2⟩
      rcases h.1 with hfo | hce
      · exact Or.inl hfo
      · exact Or.inr (rmvL_hasElemChild q c hce)
  · intro s m hm _
    simp only [rmvN] at hm
    cases hm
    rfl
  · intro _
    rfl
  · intro n ns ihn ihns h
    simp only [noFOContentL, Bool.and_eq_true] at h
    simp only [rmvL]
    cases hn : rmvN q n with
    | some m => simp [noFOContentL, ihn m hn h.1, ihns h.2]
    | none => exact ihns h.2

/-- An attribute map transfers per-element facts to the rewrite's
output. -/
theorem amap_allAttrs (f : String → List (String × String) → List (String × String))
    (p : String → List (String × String) → Bool) :
    (∀ n, allAttrsN p (amapN f n) = allAttrsN (fun t a => p t (f t a)) n) ∧
    (∀ c, allAttrsL p (amapL f c) = allAttrsL (fun t a => p t (f t a)) c) := by
  refine xnodeInd
    (fun n => allAttrsN p (amapN f n) = allAttrsN (fun t a => p t (f t a)) n)
    (fun c => allAttrsL p (amapL f c) = allAttrsL (fun t a => p t (f t a)) c)
    ?_ ?_ ?_ ?_
  · intro t a c ihc
    simp [amapN, allAttrsN, ihc]
  · intro s
    rfl
  · rfl
  · intro n ns ihn ihns
    simp [amapL, allAttrsL, ihn, ihns]

/-- An attribute map keeps tags, so tag-absence facts transfer. -/
theorem amap_noElem (f : String → List (String × String) → List (String × String))
    (q : String → Bool) :
    (∀ n, noElemN q (amapN f n) = noElemN q n) ∧
    (∀ c, noElemL q (amapL f c) = noElemL q c) := by
  refine xnodeInd (fun n => noElemN q (amapN f n) = noElemN q n)
    (fun c => noElemL q (amapL f c) = noElemL q c) ?_ ?_ ?_ ?_
  · intro t a c ihc
    simp [amapN, noElemN, ihc]
  · intro s
    rfl
  · rfl
  · intro n ns ihn ihns
    simp [amapL, noElemL, ihn, ihns]

/-- An attribute map keeps node kinds. -/
theorem amapL_hasElemChild
    (f : String → List (String × String) → List (String × String))
    (c : List XNode) : hasElemChildL (amapL f c) = hasElemChildL c := by
  induction c with
  | nil => rfl
  | cons n ns ih =>
    cases n with
    | elem t a c' => simp [amapL, amapN, hasElemChildL]
    | text s => simp [amapL, amapN, hasElemChildL, ih]

/-- An attribute map preserves the no-`foreignObject`-content
invariant. -/
theorem amap_noFOContent
    (f : String → List (String × String) → List (String × String)) :
    (∀ n, noFOContentN (amapN f n) = noFOContentN n) ∧
    (∀ c, noFOContentL (amapL f c) = noFOContentL c) := by
  refine xnodeInd (fun n => noFOContentN (amapN f n) = noFOContentN n)
    (fun c => noFOContentL (amapL f c) = noFOContentL c) ?_ ?_ ?_ ?_
  · intro t a c ihc
    simp [amapN, noFOContentN, ihc, amapL_hasElemChild]
  · intro s
    rfl
  · rfl
  · intro n ns ihn ihns
    simp [amapL, noFOContentL, ihn, ihns]

/-- An attribute map whose rewrite fixes every element in place is the
identity. -/
theorem amap_id (f : String → List (String × String) → List (String × String)) :
    (∀ n, allAttrsN (fun t a => decide (f t a = a)) n = true → amapN f n = n) ∧
    (∀ c, allAttrsL (fun t a => decide (f t a = a)) c = true → amapL f c = c) := by
  refine xnodeInd
    (fun n => allAttrsN (fun t a => decide (f t a = a)) n = true → amapN f n = n)
    (fun c => allAttrsL (fun t a => decide (f t a = a)) c = true → amapL f c = c)
    ?_ ?_ ?_ ?_
  · intro t a c ihc h
    simp only [allAttrsN, Bool.and_eq_true, decide_eq_true_eq] at h
    simp [amapN, h.1, ihc h.2]
  · intro s _
    rfl
  · intro _
    rfl
  · intro n ns ihn ihns h
    simp only [allAttrsL, Bool.and_eq_true] at h
    simp [amapL, ihn h.1, ihns h.2]

/-- Pointwise weakening of `allAttrs` facts. -/
theorem allAttrs_imp (p r : String → List (String × String) → Bool)
    (hpr : ∀ t a, p t a = true → r t a = true) :
    (∀ n, allAttrsN p n = true → allAttrsN r n = true) ∧
    (∀ c, allAttrsL p c = true → allAttrsL r c = true) := by
  refine xnodeInd (fun n => allAttrsN p n = true → allAttrsN r n = true)
    (fun c => allAttrsL p c = true → allAttrsL r c = true) ?_ ?_ ?_ ?_
  · intro t a c ihc h
    simp only [allAttrsN, Bool.and_eq_true] at h ⊢
    exact ⟨hpr t a h.1, ihc h.2⟩
  · intro s _
    rfl
  · intro _
    rfl
  · intro n ns ihn ihns h
    simp only [allAttrsL, Bool.and_eq_true] at h ⊢
    exact ⟨ihn h.1, ihns h.2⟩

/-- The trivial `allAttrs` fact. -/
theorem allAttrs_triv :
    (∀ n : XNode, allAttrsN (fun _ _ => true) n = true) ∧
    (∀ c : List XNode, allAttrsL (fun _ _ => true) c = true) := by
  refine xnodeInd (fun n => allAttrsN (fun _ _ => true) n = true)
    (fun c => allAttrsL (fun _ _ => true) c = true) ?_ ?_ ?_ ?_
  · intro t a c ihc
    simp [allAttrsN, ihc]
  · intro s
    rfl
  · rfl
  · intro n ns ihn ihns
    simp [allAttrsL, ihn, ihns]

/-- On a child list without element children, the `foreignObject` pass
is the identity whatever the pending flag is. -/
theorem foC_texts (bg : String) (c : List XNode)
    (h : hasElemChildL c = false) : ∀ pend, foC bg pend c = c := by
  induction c with
  | nil => intro pend; rfl
  | cons n ns ih =>
    intro pend
    cases n with
    | elem t a c' => simp [hasElemChildL] at h
    | text s =>
      simp only [hasElemChildL] at h
      simp [foC, foN, isElemN, ih h]

/-- The `foreignObject` pass is the identity on trees where no
`foreignObject` has an element child. -/
theorem fo_id (bg : String) :
    (∀ n, noFOContentN n = true → foN bg false n = n) ∧
    (∀ c, noFOContentL c = true → foC bg false c = c) := by
  refine xnodeInd (fun n => noFOContentN n = true → foN bg false n = n)
    (fun c => noFOContentL c = true → foC bg false c = c) ?_ ?_ ?_ ?_
  · intro t a c ihc h
    simp only [noFOContentN, Bool.and_eq_true, Bool.or_eq_true,
      Bool.not_eq_true'] at h
    simp only [foN]
    by_cases hfo : (t == "foreignObject") = true
    · rcases h.1 with hfo' | hce
      · rw [hfo'] at hfo
        cases hfo
      · rw [hfo, foC_texts bg c hce]
        simp
    · simp only [Bool.not_eq_true] at hfo
      rw [hfo, ihc h.2]
      simp
  · intro s _
    rfl
  · intro _
    rfl
  · intro n ns ihn ihns h
    simp only [noFOContentL, Bool.and_eq_true] at h
    simp [foC, ihn h.1, ihns h.2]

/-- A successful nonempty `matchCI` pins down the head character's
lowercase form. -/
theorem matchCI_head (p : Char) (ps m r : List Char)
    (h : matchCI (p :: ps) m = some r) :
    ∃ c cs, m = c :: cs ∧ c.toLower = p := by
  cases m with
  | nil => exact absurd h (by simp [matchCI])
  | cons c cs =>
    simp only [matchCI] at h
    split at h
    · rename_i hc
      exact ⟨c, cs, rfl, by simpa using hc⟩
    · cases h

/-- If the whitespace-dropped tail starts with a non-semicolon, the
value run `[^;]+` is nonempty. -/
theorem takeWhile_nonempty_of_dropWhile (l : List Char) (c : Char) (r : List Char)
    (hd : l.dropWhile jsWS = c :: r) (hc : c ≠ ';') :
    (l.takeWhile fun x => !(x == ';')).isEmpty = false := by
  induction l with
  | nil => simp [List.dropWhile] at hd
  | cons d l' ih =>
    by_cases hw : jsWS d = true
    · have hdr : l'.dropWhile jsWS = c :: r := by
        simpa [List.dropWhile, hw] using hd
      have hdne : (d == ';') = false := by
        have : d ≠ ';' := by
          intro hdd
          rw [hdd] at hw
          exact absurd hw (by decide)
        simpa using this
      simp [List.takeWhile, hdne]
    · have hdc : d = c := by
        have : d :: l' = c :: r := by
          simpa [List.dropWhile, hw] using hd
        exact (List.cons.injEq _ _ _ _ ▸ this).1
      subst hdc
      simp [List.takeWhile, show (d == ';') = false from by simpa using hc]

/-- A white match after the colon needs a nonempty non-semicolon run. -/
theorem whiteAfterColon_nonempty (l : List Char)
    (h : whiteAfterColon l = true) :
    (l.takeWhile fun x => !(x == ';')).isEmpty = false := by
  unfold whiteAfterColon at h
  have hhead : ∃ c cs, l.dropWhile jsWS = c :: cs ∧
      (c.toLower = '#' ∨ c.toLower = 'w' ∨ c.toLower = 'r') := by
    simp only [Bool.or_eq_true, Option.isSome_iff_exists] at h
    rcases h with (⟨r, hr⟩ | ⟨r, hr⟩) | h3
    · obtain ⟨c, cs, hm, hc⟩ := matchCI_head _ _ _ _ hr
      exact ⟨c, cs, hm, Or.inl hc⟩
    · obtain ⟨c, cs, hm, hc⟩ := matchCI_head _ _ _ _ hr
      exact ⟨c, cs, hm, Or.inr (Or.inl hc)⟩
    · split at h3
      · exact absurd h3 (by simp)
      · rename_i r hr
        obtain ⟨c, cs, hm, hc⟩ := matchCI_head _ _ _ _ hr
        exact ⟨c, cs, hm, Or.inr (Or.inr hc)⟩
  obtain ⟨c, cs, hd, hc⟩ := hhead
  refine takeWhile_nonempty_of_dropWhile l c cs hd ?_
  intro hcc
  subst hcc
  rcases hc with h' | h' | h' <;> exact absurd h' (by decide)

/-- A white-fill match is in particular a general fill match. -/
theorem whiteFill_implies_fill (l : List Char)
    (h : whiteFillAfterAnchor l = true) : (fillAfterAnchor l).isSome = true := by
  unfold whiteFillAfterAnchor at h
  split at h
  · cases h
  · rename_i l2 hm
    split at h
    · rename_i l4 hd
      unfold fillAfterAnchor
      rw [hm]
      simp only []
      rw [hd]
      simp [whiteAfterColon_nonempty l4 h]
    · cases h

/-- A white-fill style test entails a general fill declaration. -/
theorem whiteStyleTest_implies_hasFillDecl (l : List Char)
    (h : whiteStyleTest l = true) : hasFillDecl l = true := by
  unfold whiteStyleTest at h
  unfold hasFillDecl
  rw [Bool.or_eq_true] at h
  rcases h with h1 | h2
  · simp [whiteFill_implies_fill l h1]
  · have : ∀ m : List Char, scanWhiteGo m = true → scanFillGo m = true := by
      intro m
      induction m with
      | nil => intro hh; exact absurd hh (by simp [scanWhiteGo])
      | cons c r ih =>
        intro hh
        simp only [scanWhiteGo] at hh
        simp only [scanFillGo]
        split at hh
        · rename_i hc
          rw [if_pos hc]
          rw [Bool.or_eq_true] at hh
          rcases hh with ha | hb
          · simp [whiteFill_implies_fill r ha]
          · simp [ih hb]
        · rename_i hc
          rw [if_neg hc]
          exact ih hh
    simp [this l h2]

/-- Without a `;`-anchored match the replace loop copies verbatim. -/
theorem stripGo_id (l : List Char) (h : scanFillGo l = false) : stripGo l = l := by
  induction l with
  | nil => rw [stripGo]
  | cons c r ih =>
    simp only [scanFillGo] at h
    rw [stripGo]
    split at h
    · rename_i hc
      simp only [Bool.or_eq_false_iff] at h
      have hnone : fillAfterAnchor r = none := by
        cases hfa : fillAfterAnchor r with
        | none => rfl
        | some v =>
          rw [hfa] at h
          simp at h
      rw [if_pos hc, hnone]
      exact congrArg (c :: ·) (ih h.2)
    · rename_i hc
      rw [if_neg hc, ih h]

/-- Without any match the whole global replace is the identity. -/
theorem stripFillDecls_id (l : List Char) (h : hasFillDecl l = false) :
    stripFillDecls l = l := by
  unfold hasFillDecl at h
  simp only [Bool.or_eq_false_iff] at h
  have hnone : fillAfterAnchor l = none := by
    cases hfa : fillAfterAnchor l with
    | none => rfl
    | some v =>
      rw [hfa] at h
      simp at h
  unfold stripFillDecls
  rw [hnone]
  exact stripGo_id l h.2

/-- `String.data` round-trips through `List.asString`. -/
theorem data_asString (s : String) : s.data.asString = s := by
  cases s
  rfl

/-- `rectFix` with a false trigger condition is the identity. -/
theorem rectFix_id_of_cond_false (a : List (String × String))
    (h : (isWhite (getAttr a "fill") ||
      whiteStyleTest ((getAttr a "style").getD "").data) = false) :
    rectFix a = a := by
  simp only [rectFix]
  rw [h]
  simp

/-- `rectFix` never touches the `filter` attribute. -/
theorem rectFix_filter (a : List (String × String)) :
    getAttr (rectFix a) "filter" = getAttr a "filter" := by
  simp only [rectFix]
  split
  · rw [getAttr_setAttr_ne _ _ _ _ (by decide),
      getAttr_setAttr_ne _ _ _ _ (by decide)]
  · rfl

/-- With no inline fill declaration, `rectFix` preserves the effective
style string. -/
theorem rectFix_styleGetD (a : List (String × String))
    (h : hasFillDecl ((getAttr a "style").getD "").data = false) :
    (getAttr (rectFix a) "style").getD "" = (getAttr a "style").getD "" := by
  simp only [rectFix]
  split
  · rw [getAttr_setAttr_self]
    simp only [Option.getD_some]
    rw [stripFillDecls_id _ h, data_asString]
  · rfl

/-- With no inline fill declaration, `rectFix` is idempotent. -/
theorem rectFix_idem (a : List (String × String))
    (h : hasFillDecl ((getAttr a "style").getD "").data = false) :
    rectFix (rectFix a) = rectFix a := by
  have hwst : whiteStyleTest ((getAttr a "style").getD "").data = false := by
    cases hw : whiteStyleTest ((getAttr a "style").getD "").data with
    | false => rfl
    | true => exact absurd (whiteStyleTest_implies_hasFillDecl _ hw) (by simp [h])
  by_cases hcond : (isWhite (getAttr a "fill") ||
      whiteStyleTest ((getAttr a "style").getD "").data) = true
  · have ha' : rectFix a =
        setAttr (setAttr a "fill" "none") "style"
          (stripFillDecls ((getAttr a "style").getD "").data).asString := by
      simp only [rectFix]
      rw [if_pos hcond]
    have hfill : getAttr (rectFix a) "fill" = some "none" := by
      rw [ha', getAttr_setAttr_ne _ _ _ _ (by decide), getAttr_setAttr_self]
    have hstyle : (getAttr (rectFix a) "style").getD "" =
        (getAttr a "style").getD "" := rectFix_styleGetD a h
    refine rectFix_id_of_cond_false (rectFix a) ?_
    rw [hfill, hstyle, hwst]
    simp only [Bool.or_false]
    decide
  · have hid : rectFix a = a :=
      rectFix_id_of_cond_false a (by simpa using hcond)
    rw [hid]
    exact hid

/-- `fFilAttr` leaves every attribute with no `filter` binding. -/
theorem fFilAttr_clears (tg : String) (al : List (String × String)) :
    getAttr (fFilAttr tg al) "filter" = none :=
  getAttr_removeAttr_self al "filter"

/-- `fRect` never touches the `filter` attribute. -/
theorem fRect_filter (tg : String) (al : List (String × String)) :
    getAttr (fRect tg al) "filter" = getAttr al "filter" := by
  unfold fRect
  by_cases hr : (tg == "rect") = true
  · rw [if_pos hr]
    exact rectFix_filter al
  · rw [if_neg (by simpa using hr)]

/-- `fFilAttr` preserves the rect-style invariant. -/
theorem fFilAttr_rectStyleOK (tg : String) (al : List (String × String))
    (h : rectStyleOK tg al = true) : rectStyleOK tg (fFilAttr tg al) = true := by
  unfold rectStyleOK at h ⊢
  unfold fFilAttr
  rw [getAttr_removeAttr_ne _ _ _ (by decide)]
  exact h

/-- Under the rect-style invariant, `fRect` fixes its own output. -/
theorem fRect_pt_idem (tg : String) (al : List (String × String))
    (h : rectStyleOK tg al = true) : fRect tg (fRect tg al) = fRect tg al := by
  unfold rectStyleOK at h
  unfold fRect
  by_cases hr : (tg == "rect") = true
  · rw [hr] at h
    simp only [Bool.not_true, Bool.false_or, Bool.not_eq_true'] at h
    rw [if_pos hr, if_pos hr]
    exact rectFix_idem al h
  · rw [if_neg (by simpa using hr), if_neg (by simpa using hr)]

/-- `removeAttr` of an already-absent `filter` attribute fixes
`fFilAttr`'s own output. -/
theorem fFilAttr_pt_idem (tg : String) (al : List (String × String)) :
    fFilAttr tg (fFilAttr tg al) = fFilAttr tg al :=
  removeAttr_id _ "filter" (fFilAttr_clears tg al)

/-- C2 (amended): the sanitizer is idempotent — in tree form and in
serialized bytes — on every well-formed input in which no
`foreignObject` has a content element and no `rect` carries an inline
`fill` declaration in its `style` attribute. -/
theorem processSvg_idempotent (bg t : String) (a : List (String × String))
    (c : List XNode)
    (h1 : noFOContentL c = true)
    (h2 : allAttrsL rectStyleOK c = true) :
    processSvgTree bg (processSvgTree bg (.elem t a c)) =
      processSvgTree bg (.elem t a c) ∧
    serN (processSvgTree bg (processSvgTree bg (.elem t a c))) =
      serN (processSvgTree bg (.elem t a c)) := by
  have key : processSvgTree bg (processSvgTree bg (.elem t a c)) =
      processSvgTree bg (.elem t a c) := by
    have hNoStyle1 : noElemL pStyleTag (rmvL pStyleTag c) = true :=
      (rmv_sound pStyleTag).2 c
    have hNoStyle2 :
        noElemL pStyleTag (rmvL pFilterTag (rmvL pStyleTag c)) = true :=
      (rmv_pres_noElem pFilterTag pStyleTag).2 _ hNoStyle1
    have hNoFilt2 :
        noElemL pFilterTag (rmvL pFilterTag (rmvL pStyleTag c)) = true :=
      (rmv_sound pFilterTag).2 _
    have hNoStyle3 : noElemL pStyleTag
        (amapL fFilAttr (rmvL pFilterTag (rmvL pStyleTag c))) = true := by
      rw [(amap_noElem fFilAttr pStyleTag).2]
      exact hNoStyle2
    have hNoFilt3 : noElemL pFilterTag
        (amapL fFilAttr (rmvL pFilterTag (rmvL pStyleTag c))) = true := by
      rw [(amap_noElem fFilAttr pFilterTag).2]
      exact hNoFilt2
    have hNoStyle4 : noElemL pStyleTag
        (amapL fRect (amapL fFilAttr (rmvL pFilterTag (rmvL pStyleTag c)))) =
          true := by
      rw [(amap_noElem fRect pStyleTag).2]
      exact hNoStyle3
    have hNoFilt4 : noElemL pFilterTag
        (amapL fRect (amapL fFilAttr (rmvL pFilterTag (rmvL pStyleTag c)))) =
          true := by
      rw [(amap_noElem fRect pFilterTag).2]
      exact hNoFilt3
    have hNoFiltAttr3 : allAttrsL (fun _ al => decide (getAttr al "filter" = none))
        (amapL fFilAttr (rmvL pFilterTag (rmvL pStyleTag c))) = true := by
      rw [(amap_allAttrs fFilAttr _).2]
      refine (allAttrs_imp (fun _ _ => true) _ ?_).2 _ (allAttrs_triv.2 _)
      intro tg al _
      simp [fFilAttr_clears]
    have hNoFiltAttr4 : allAttrsL (fun _ al => decide (getAttr al "filter" = none))
        (amapL fRect (amapL fFilAttr (rmvL pFilterTag (rmvL pStyleTag c)))) =
          true := by
      rw [(amap_allAttrs fRect _).2]
      refine (allAttrs_imp _ _ ?_).2 _ hNoFiltAttr3
      intro tg al hal
      simp only [decide_eq_true_eq] at hal ⊢
      rw [fRect_filter]
      exact hal
    have hRect2 : allAttrsL rectStyleOK (rmvL pFilterTag (rmvL pStyleTag c)) =
        true :=
      (rmv_pres_allAttrs pFilterTag rectStyleOK).2 _
        ((rmv_pres_allAttrs pStyleTag rectStyleOK).2 c h2)
    have hRect3 : allAttrsL rectStyleOK
        (amapL fFilAttr (rmvL pFilterTag (rmvL pStyleTag c))) = true := by
      rw [(amap_allAttrs fFilAttr rectStyleOK).2]
      refine (allAttrs_imp rectStyleOK _ ?_).2 _ hRect2
      intro tg al hal
      exact fFilAttr_rectStyleOK tg al hal
    have hFO4 : noFOContentL
        (amapL fRect (amapL fFilAttr (rmvL pFilterTag (rmvL pStyleTag c)))) =
          true := by
      rw [(amap_noFOContent fRect).2, (amap_noFOContent fFilAttr).2]
      exact (rmv_pres_noFOContent pFilterTag).2 _
        ((rmv_pres_noFOContent pStyleTag).2 c h1)
    have hC5 : foC bg false
        (amapL fRect (amapL fFilAttr (rmvL pFilterTag (rmvL pStyleTag c)))) =
        amapL fRect (amapL fFilAttr (rmvL pFilterTag (rmvL pStyleTag c))) :=
      (fo_id bg).2 _ hFO4
    have hd1 : rmvL pStyleTag
        (amapL fRect (amapL fFilAttr (rmvL pFilterTag (rmvL pStyleTag c)))) =
        amapL fRect (amapL fFilAttr (rmvL pFilterTag (rmvL pStyleTag c))) :=
      (rmv_id pStyleTag).2 _ hNoStyle4
    have hd2 : rmvL pFilterTag
        (amapL fRect (amapL fFilAttr (rmvL pFilterTag (rmvL pStyleTag c)))) =
        amapL fRect (amapL fFilAttr (rmvL pFilterTag (rmvL pStyleTag c))) :=
      (rmv_id pFilterTag).2 _ hNoFilt4
    have hd3 : amapL fFilAttr
        (amapL fRect (amapL fFilAttr (rmvL pFilterTag (rmvL pStyleTag c)))) =
        amapL fRect (amapL fFilAttr (rmvL pFilterTag (rmvL pStyleTag c))) := by
      refine (amap_id fFilAttr).2 _ ?_
      refine (allAttrs_imp _ _ ?_).2 _ hNoFiltAttr4
      intro tg al hal
      simp only [decide_eq_true_eq] at hal ⊢
      exact removeAttr_id al "filter" hal
    have hd4 : amapL fRect
        (amapL fRect (amapL fFilAttr (rmvL pFilterTag (rmvL pStyleTag c)))) =
        amapL fRect (amapL fFilAttr (rmvL pFilterTag (rmvL pStyleTag c))) := by
      refine (amap_id fRect).2 _ ?_
      rw [(amap_allAttrs fRect _).2]
      refine (allAttrs_imp rectStyleOK _ ?_).2 _ hRect3
      intro tg al hal
      simp only [decide_eq_true_eq]
      exact fRect_pt_idem tg al hal
    simp only [processSvgTree]
    rw [hC5, hd1, hd2, hd3, hd4, hC5, rootFix_idem]
  exact ⟨key, congrArg serN key⟩

/-- C2 counterexample: on an SVG whose `foreignObject` holds a `div`,
the sanitizer appends the forced background a second time, so the second
application changes the serialized bytes. -/
theorem processSvg_not_idempotent :
    serN (processSvgTree "#123456" (processSvgTree "#123456" cexSvg)) ≠
      serN (processSvgTree "#123456" cexSvg) ∧
    serN (processSvgTree "#123456" cexSvg) =
      "<svg viewBox=\"0 0 10 10\" preserveAspectRatio=\"xMidYMid meet\"><foreignObject><div style=\";background:#123456 !important;\"/></foreignObject></svg>" ∧
    serN (processSvgTree "#123456" (processSvgTree "#123456" cexSvg)) =
      "<svg viewBox=\"0 0 10 10\" preserveAspectRatio=\"xMidYMid meet\"><foreignObject><div style=\";background:#123456 !important;;background:#123456 !important;\"/></foreignObject></svg>" := by
  refine ⟨by decide, rfl, rfl⟩

/-- Witness for the amended C2 on a concrete sanitizer input. -/
theorem processSvg_idempotent_witness :
    processSvgTree "#123456" (processSvgTree "#123456" witSvg) =
      processSvgTree "#123456" witSvg := by
  have h := processSvg_idempotent "#123456" "svg"
    [("width", "100px"), ("height", "50")]
    [.elem "style" [] [.text "rect \x7b stroke: red \x7d"],
     .elem "g" [("filter", "url(#f)")]
       [.elem "rect" [("fill", "#FFFFFF"), ("style", "stroke:black")] [],
        .elem "filter" [("id", "f")] []],
     .elem "foreignObject" [] [.text "plain text"]]
    (by decide) (by decide)
  exact h.1

end YrWeather
